import Mathlib

/-!
Shallow embedding of the session-lifecycle core of `pi-mcp-server`.

The registry (`SessionStore` in `src/session-store.ts`) is a JavaScript
`Map<string, SessionEntry>`; a JS `Map` preserves insertion order, `set` on a
present key overwrites in place, and `delete` removes the entry.  We embed the
map as an association list (`List (String × SessionEntry)`) with exactly those
semantics.

A stored entry carries `session` (the work handle, with `isStreaming`,
`abort()` and `dispose()`), an `unsubscribe` callback and `lastAccessed`.
The behaviour of those external callbacks is captured by boolean fault flags
(may `unsubscribe` throw, may `abort` throw synchronously, may the promise it
returns reject, may `dispose` throw); the disposal routine's side effects are
recorded as an explicit event log, so that "every release step runs, errors
are logged, nothing propagates" becomes a statement about the log.
-/

namespace PiMcp

/-- One stored session record (`SessionEntry` in `src/session-store.ts`).
`isStreaming` is the work handle's busy flag; the four `...Throws` /
`...Rejects` flags model whether the external callbacks fail when invoked. -/
structure SessionEntry where
  isStreaming : Bool
  lastAccessed : Nat
  unsubscribeThrows : Bool
  abortThrowsSync : Bool
  abortRejects : Bool
  disposeThrows : Bool
deriving DecidableEq

/-- Observable side effects of the disposal routine, tagged with the thread id
of the record being disposed.  `...Called` events mark that a release step was
invoked; `...Logged` events mark a caught-and-logged failure
(`console.error` in the source). -/
inductive Ev where
  | unsubCalled (id : String)
  | unsubErrorLogged (id : String)
  | abortCalled (id : String)
  | abortSyncErrorLogged (id : String)
  | abortAsyncErrorLogged (id : String)
  | disposeCalled (id : String)
  | disposeErrorLogged (id : String)
deriving DecidableEq

/-- `Map.get`: first (only, since JS keys are unique) binding of `id`. -/
def lookupEntry : List (String × SessionEntry) → String → Option SessionEntry
  | [], _ => none
  | (k, v) :: rest, id => if k = id then some v else lookupEntry rest id

/-- `Map.set`: overwrite in place when the key is present (keeping its
position in iteration order), otherwise append at the end. -/
def insertEntry : List (String × SessionEntry) → String → SessionEntry → List (String × SessionEntry)
  | [], id, e => [(id, e)]
  | (k, v) :: rest, id, e =>
    if k = id then (k, e) :: rest else (k, v) :: insertEntry rest id e

/-- `Map.delete`: remove the binding of `id`, keeping the order of the rest. -/
def eraseEntry : List (String × SessionEntry) → String → List (String × SessionEntry)
  | [], _ => []
  | (k, v) :: rest, id => if k = id then rest else (k, v) :: eraseEntry rest id

/-- `entry.unsubscribe()` — throws iff the fault flag says so. -/
def unsubscribeResult (e : SessionEntry) : Except String Unit :=
  if e.unsubscribeThrows then Except.error "unsubscribe failed" else Except.ok ()

/-- `entry.session.abort()` — outer `Except` is a synchronous throw, the inner
one is the settled state of the returned promise. -/
def abortResult (e : SessionEntry) : Except String (Except String Unit) :=
  if e.abortThrowsSync then Except.error "abort threw synchronously"
  else Except.ok (if e.abortRejects then Except.error "abort failed" else Except.ok ())

/-- `entry.session.dispose()` — throws iff the fault flag says so. -/
def disposeResult (e : SessionEntry) : Except String Unit :=
  if e.disposeThrows then Except.error "dispose failed" else Except.ok ()

/-- The three independently guarded release steps of
`SessionStore._disposeEntry` (lines 98-116 of `src/session-store.ts`): each
step is wrapped in its own `try`/`catch`, a failure is logged and the next
step still runs; an asynchronous rejection of `abort()` is handled by the
`.catch(...)` attached to the promise. -/
def disposalSteps (threadId : String) (e : SessionEntry) : List Ev :=
  (match unsubscribeResult e with
    | Except.ok _ => [Ev.unsubCalled threadId]
    | Except.error _ => [Ev.unsubCalled threadId, Ev.unsubErrorLogged threadId]) ++
  (match abortResult e with
    | Except.error _ => [Ev.abortCalled threadId, Ev.abortSyncErrorLogged threadId]
    | Except.ok (Except.error _) => [Ev.abortCalled threadId, Ev.abortAsyncErrorLogged threadId]
    | Except.ok (Except.ok _) => [Ev.abortCalled threadId]) ++
  (match disposeResult e with
    | Except.ok _ => [Ev.disposeCalled threadId]
    | Except.error _ => [Ev.disposeCalled threadId, Ev.disposeErrorLogged threadId])

/-- Event log of disposing each record of a list in order, once each. -/
def disposalLog : List (String × SessionEntry) → List Ev
  | [] => []
  | p :: rest => disposalSteps p.1 p.2 ++ disposalLog rest

/-- The registry (`SessionStore`).  `expiryTimer = some p` means the idle
sweep is scheduled with tick period `p` milliseconds; `none` means no timer. -/
structure SessionStore where
  sessions : List (String × SessionEntry)
  maxSessions : Nat
  idleTimeoutMs : Nat
  expiryTimer : Option Nat
deriving DecidableEq

/-- The constructor: converts the idle timeout to milliseconds and schedules
the sweep with a fixed 60 000 ms period iff the timeout is positive. -/
def mkStore (maxSessions idleTimeoutSeconds : Nat) : SessionStore :=
  let ms := idleTimeoutSeconds * 1000
  { sessions := []
    maxSessions := maxSessions
    idleTimeoutMs := ms
    expiryTimer := if ms > 0 then some 60000 else none }

/-- `has(threadId)`. -/
def SessionStore.hasId (s : SessionStore) (threadId : String) : Bool :=
  (lookupEntry s.sessions threadId).isSome

/-- `get(threadId)`: refreshes `lastAccessed` on the found entry (the source
mutates the stored object, so the stored entry and the returned entry are the
same refreshed record). -/
def SessionStore.get (s : SessionStore) (threadId : String) (now : Nat) :
    SessionStore × Option SessionEntry :=
  match lookupEntry s.sessions threadId with
  | none => (s, none)
  | some e =>
    let e2 := { e with lastAccessed := now }
    ({ s with sessions := insertEntry s.sessions threadId e2 }, some e2)

/-- `SessionStore._disposeEntry`: returns silently when the id is absent,
otherwise removes the record from the map first and then runs the guarded
release steps.  It is total — no failure of a release step escapes it. -/
def SessionStore._disposeEntry (s : SessionStore) (threadId : String) :
    SessionStore × List Ev :=
  match lookupEntry s.sessions threadId with
  | none => (s, [])
  | some entry =>
    ({ s with sessions := eraseEntry s.sessions threadId }, disposalSteps threadId entry)

/-- The eviction scan of `SessionStore.set` (lines 49-57): walk the map in
iteration order, tracking the id of the non-streaming record with the
strictly smallest `lastAccessed` seen so far (`oldestTime` starts at
`Infinity`, represented by the accumulator being `none`). -/
def oldestScan : List (String × SessionEntry) → Option (String × Nat) → Option (String × Nat)
  | [], acc => acc
  | (id, e) :: rest, acc =>
    oldestScan rest
      (if !e.isStreaming &&
            (match acc with
              | none => true
              | some q => decide (e.lastAccessed < q.2)) then
        some (id, e.lastAccessed)
      else acc)

/-- Id selected for eviction by the scan, if any. -/
def oldestIdle (l : List (String × SessionEntry)) : Option String :=
  (oldestScan l none).map Prod.fst

/-- The capacity-exhausted error message of `SessionStore.set`. -/
def capacityMsg (maxSessions : Nat) : String :=
  "Maximum sessions (" ++ (toString maxSessions ++ ") reached and all are active. Try again later.")

/-- Result of `set`: `ok` carries the new store and the disposal events of an
eviction (if one happened); `err` models the thrown error — the store is the
one at the moment of the throw, which the code has not yet mutated. -/
inductive SetResult where
  | ok (s : SessionStore) (evs : List Ev)
  | err (s : SessionStore) (msg : String)
deriving DecidableEq

/-- `set(threadId, entry)` (lines 46-69): when at capacity and the id is new,
scan for the oldest idle record; the source then checks `if (!oldestId)` —
JavaScript truthiness, so both `undefined` (no idle record) and the empty
string `""` (an idle record stored under the empty id) take the throw branch.
Otherwise dispose the selected record and insert the new one. -/
def SessionStore.set (s : SessionStore) (threadId : String) (entry : SessionEntry) : SetResult :=
  if s.sessions.length ≥ s.maxSessions ∧ lookupEntry s.sessions threadId = none then
    match oldestIdle s.sessions with
    | none => SetResult.err s (capacityMsg s.maxSessions)
    | some oldestId =>
      if oldestId = "" then SetResult.err s (capacityMsg s.maxSessions)
      else
        let d := s._disposeEntry oldestId
        SetResult.ok { d.1 with sessions := insertEntry d.1.sessions threadId entry } d.2
  else
    SetResult.ok { s with sessions := insertEntry s.sessions threadId entry } []

/-- `delete(threadId)`: delegates to the shared disposal routine. -/
def SessionStore.delete (s : SessionStore) (threadId : String) : SessionStore × List Ev :=
  s._disposeEntry threadId

/-- `clear()`: stop the expiry timer first, then dispose every remaining
record in iteration order (the source snapshots the keys before the loop). -/
def SessionStore.clear (s : SessionStore) : SessionStore × List Ev :=
  let stopped : SessionStore := { s with expiryTimer := none }
  (stopped.sessions.map Prod.fst).foldl
    (fun acc id =>
      let d := acc.1._disposeEntry id
      (d.1, acc.2 ++ d.2))
    (stopped, [])

/-- `size`. -/
def SessionStore.size (s : SessionStore) : Nat :=
  s.sessions.length

/-- The per-record test of the sweep: `now - entry.lastAccessed >
this._idleTimeoutMs`, computed over the integers as in JavaScript. -/
def expiredAt (idleTimeoutMs now : Nat) (p : String × SessionEntry) : Bool :=
  decide ((now : Int) - (p.2.lastAccessed : Int) > (idleTimeoutMs : Int))

/-- One iteration of the sweep loop: dispose the record when it is
idle-expired (the `try`/`catch` around the disposal cannot fire, since the
disposal routine never throws), otherwise leave the state alone. -/
def expireStep (idleTimeoutMs now : Nat) (acc : SessionStore × List Ev)
    (p : String × SessionEntry) : SessionStore × List Ev :=
  if expiredAt idleTimeoutMs now p then
    let d := acc.1._disposeEntry p.1
    (d.1, acc.2 ++ d.2)
  else acc

/-- `SessionStore._expireIdle` (lines 119-130): scan all records, disposing
the idle-expired ones.  Deleting the record currently visited is safe during
JS `Map` iteration, and the loop only ever deletes the visited record, so the
iteration is over the snapshot of entries at tick time. -/
def SessionStore._expireIdle (s : SessionStore) (now : Nat) : SessionStore × List Ev :=
  s.sessions.foldl (expireStep s.idleTimeoutMs now) (s, [])

/-- A caller-driven store operation (the operations named by the registry's
public contract that a remote caller can trigger): admit, lookup, remove. -/
inductive Op where
  | opSet (id : String) (e : SessionEntry)
  | opGet (id : String) (now : Nat)
  | opDelete (id : String)

/-- Apply one operation to the store; a thrown capacity error leaves the
store as it was at the throw. -/
def applyOp (s : SessionStore) : Op → SessionStore
  | Op.opSet id e =>
    match s.set id e with
    | SetResult.ok s1 _ => s1
    | SetResult.err s1 _ => s1
  | Op.opGet id now => (s.get id now).1
  | Op.opDelete id => (s.delete id).1

/-- Run a sequence of caller-driven operations. -/
def runOps (s : SessionStore) (ops : List Op) : SessionStore :=
  ops.foldl applyOp s

/-!
The "pi-reply" tool handler (`registerPiReplyTool` in
`src/tools/pi-reply.ts`, lines 25-95): one unit of work against an existing
session, serialized by the per-session mutex (the chained-ticket
serializer).  The handler body is deterministic given the outcomes of its
interactions with the environment, which we capture in `ReplyEnv`:

* `sessionFound` — whether `store.get(threadId)` finds an entry;
* `stillPresentAfterWait` — whether `store.has(threadId)` still holds after
  `await previousMutex` (the session may be evicted while waiting);
* `promptResult` — the settled state of `entry.session.prompt(...)`;
* `lastAssistantText` — what `entry.session.getLastAssistantText()` returns
  (`none` models `undefined`).

The result records the response (`isError`, `text`) together with the
observable protocol facts the claims are about: whether a fresh ticket
(mutex) was installed for the next waiter, whether it was resolved, and
which calls on the work handle were performed.
-/

/-- Environment outcomes a `pi-reply` invocation can encounter. -/
structure ReplyEnv where
  sessionFound : Bool
  stillPresentAfterWait : Bool
  promptResult : Except String Unit
  lastAssistantText : Option String

/-- Observable outcome of one `pi-reply` invocation. -/
structure ReplyResult where
  isError : Bool
  text : String
  ticketInstalled : Bool
  ticketResolved : Bool
  promptCalled : Bool
  getLastTextCalled : Bool
  lastAccessedRefreshed : Bool
deriving DecidableEq

/-- The "session not found before the mutex was taken" message. -/
def notFoundStale (threadId : String) : String :=
  "Session not found: " ++
    (threadId ++ ". It may have expired or been cleaned up. Start a new session with the \"pi\" tool.")

/-- The "session evicted while waiting on the mutex" message. -/
def notFoundEvicted (threadId : String) : String :=
  "Session not found: " ++
    (threadId ++ ". It was evicted while waiting. Start a new session with the \"pi\" tool.")

/-- Outcome of the `try`/`catch` body of the handler (everything between the
mutex installation and the `finally`). -/
structure ReplyBodyOut where
  isError : Bool
  text : String
  promptCalled : Bool
  getLastTextCalled : Bool
  lastAccessedRefreshed : Bool

/-- The `try` block of the handler with its `catch` clause folded in: re-check
presence, call `prompt` (a failure is caught and rendered as "Pi agent error:
..."), refresh `lastAccessed`, read the last assistant text (JS treats the
empty string as falsy, so `""` also yields the no-text response). -/
def piReplyBody (threadId : String) (env : ReplyEnv) : ReplyBodyOut :=
  if env.stillPresentAfterWait = false then
    { isError := true, text := notFoundEvicted threadId
      promptCalled := false, getLastTextCalled := false, lastAccessedRefreshed := false }
  else
    match env.promptResult with
    | Except.error m =>
      { isError := true, text := "Pi agent error: " ++ m
        promptCalled := true, getLastTextCalled := false, lastAccessedRefreshed := false }
    | Except.ok _ =>
      match env.lastAssistantText with
      | none =>
        { isError := true, text := "Agent completed but produced no text response."
          promptCalled := true, getLastTextCalled := true, lastAccessedRefreshed := true }
      | some t =>
        if t = "" then
          { isError := true, text := "Agent completed but produced no text response."
            promptCalled := true, getLastTextCalled := true, lastAccessedRefreshed := true }
        else
          { isError := false, text := t
            promptCalled := true, getLastTextCalled := true, lastAccessedRefreshed := true }

/-- The whole handler: when the session is not found, return before any
ticket is installed; otherwise install the new ticket (mutex), await the
previous one, run the body, and — in the `finally` clause, on every exit path
of the body — resolve the installed ticket. -/
def piReplyHandler (threadId : String) (env : ReplyEnv) : ReplyResult :=
  if env.sessionFound = false then
    { isError := true, text := notFoundStale threadId
      ticketInstalled := false, ticketResolved := false
      promptCalled := false, getLastTextCalled := false, lastAccessedRefreshed := false }
  else
    let b := piReplyBody threadId env
    { isError := b.isError, text := b.text
      ticketInstalled := true, ticketResolved := true
      promptCalled := b.promptCalled, getLastTextCalled := b.getLastTextCalled
      lastAccessedRefreshed := b.lastAccessedRefreshed }

/-! Concrete entries, stores and environments used to instantiate the
theorems below on closed inputs. -/

/-- A non-busy entry whose callbacks all succeed. -/
def idleEntry : SessionEntry :=
  { isStreaming := false, lastAccessed := 0
    unsubscribeThrows := false, abortThrowsSync := false
    abortRejects := false, disposeThrows := false }

/-- A busy (streaming) entry. -/
def busyEntry : SessionEntry :=
  { isStreaming := true, lastAccessed := 0
    unsubscribeThrows := false, abortThrowsSync := false
    abortRejects := false, disposeThrows := false }

/-- An idle entry whose unsubscribe and dispose callbacks throw and whose
abort throws synchronously. -/
def faultyEntry : SessionEntry :=
  { isStreaming := false, lastAccessed := 0
    unsubscribeThrows := true, abortThrowsSync := true
    abortRejects := false, disposeThrows := true }

/-- An idle entry with `lastAccessed = 2`. -/
def idleEntryAt2 : SessionEntry :=
  { idleEntry with lastAccessed := 2 }

/-- Store at capacity 1 whose only (idle) record is keyed by the empty
string. -/
def c2Store : SessionStore :=
  { sessions := [("", idleEntry)], maxSessions := 1, idleTimeoutMs := 0, expiryTimer := none }

/-- Store at capacity 1 whose only record is busy. -/
def c3Store : SessionStore :=
  { sessions := [("a", busyEntry)], maxSessions := 1, idleTimeoutMs := 0, expiryTimer := none }

/-- Store holding one record under "a". -/
def c6Store : SessionStore :=
  { sessions := [("a", idleEntry)], maxSessions := 5, idleTimeoutMs := 0, expiryTimer := none }

/-- Store holding one record with faulty callbacks under "a". -/
def c7Store : SessionStore :=
  { sessions := [("a", faultyEntry)], maxSessions := 5, idleTimeoutMs := 0, expiryTimer := none }

/-- Store with a 10 ms idle timeout holding a stale record (`lastAccessed =
0`) and a fresh one (`lastAccessed = 1995`). -/
def c9Store : SessionStore :=
  { sessions := [("old", idleEntry), ("fresh", { idleEntry with lastAccessed := 1995 })]
    maxSessions := 5, idleTimeoutMs := 10, expiryTimer := some 60000 }

/-- Store with a 10 ms idle timeout holding one stale record. -/
def c10Store : SessionStore :=
  { sessions := [("a", idleEntry)], maxSessions := 5, idleTimeoutMs := 10, expiryTimer := some 60000 }

/-- Environment in which everything succeeds. -/
def replyEnvOk : ReplyEnv :=
  { sessionFound := true, stillPresentAfterWait := true
    promptResult := Except.ok (), lastAssistantText := some "hi" }

/-- Environment in which the session is evicted while waiting on the mutex. -/
def replyEnvEvicted : ReplyEnv :=
  { sessionFound := true, stillPresentAfterWait := false
    promptResult := Except.ok (), lastAssistantText := some "hi" }

/-! Association-list lemmas mirroring the JS `Map` semantics. -/

theorem lookupEntry_eq_none_iff (l : List (String × SessionEntry)) (k : String) :
    lookupEntry l k = none ↔ k ∉ l.map Prod.fst := by
  induction l with
  | nil => simp [lookupEntry]
  | cons p rest ih =>
    obtain ⟨k', v⟩ := p
    by_cases h : k' = k
    · subst h
      simp [lookupEntry]
    · simp [lookupEntry, h, Ne.symm h, ih]

theorem lookupEntry_isSome_of_mem (l : List (String × SessionEntry)) (k : String)
    (h : k ∈ l.map Prod.fst) : ∃ e, lookupEntry l k = some e := by
  rcases he : lookupEntry l k with _ | e
  · exact absurd ((lookupEntry_eq_none_iff l k).mp he) (by simp [h])
  · exact ⟨e, rfl⟩

theorem lookupEntry_insertEntry_self (l : List (String × SessionEntry)) (id : String)
    (e : SessionEntry) : lookupEntry (insertEntry l id e) id = some e := by
  induction l with
  | nil => simp [insertEntry, lookupEntry]
  | cons p rest ih =>
    obtain ⟨k, v⟩ := p
    by_cases h : k = id <;> simp [insertEntry, lookupEntry, h, ih]

theorem lookupEntry_insertEntry_ne (l : List (String × SessionEntry)) (id k : String)
    (e : SessionEntry) (h : k ≠ id) :
    lookupEntry (insertEntry l id e) k = lookupEntry l k := by
  induction l with
  | nil => simp [insertEntry, lookupEntry, Ne.symm h]
  | cons p rest ih =>
    obtain ⟨k', v⟩ := p
    by_cases h' : k' = id
    · subst h'
      simp [insertEntry, lookupEntry, Ne.symm h]
    · by_cases h'' : k' = k
      · subst h''
        simp [insertEntry, lookupEntry, h']
      · simp [insertEntry, lookupEntry, h', h'', ih]

theorem length_insertEntry_of_some (l : List (String × SessionEntry)) (id : String)
    (x e : SessionEntry) (h : lookupEntry l id = some e) :
    (insertEntry l id x).length = l.length := by
  induction l with
  | nil => simp [lookupEntry] at h
  | cons p rest ih =>
    obtain ⟨k, v⟩ := p
    by_cases hk : k = id
    · simp [insertEntry, hk]
    · simp [lookupEntry, hk] at h
      simp [insertEntry, hk, ih h]

theorem length_insertEntry_of_none (l : List (String × SessionEntry)) (id : String)
    (x : SessionEntry) (h : lookupEntry l id = none) :
    (insertEntry l id x).length = l.length + 1 := by
  induction l with
  | nil => simp [insertEntry]
  | cons p rest ih =>
    obtain ⟨k, v⟩ := p
    by_cases hk : k = id
    · simp [lookupEntry, hk] at h
    · simp [lookupEntry, hk] at h
      simp [insertEntry, hk, ih h]

theorem length_eraseEntry_of_some (l : List (String × SessionEntry)) (id : String)
    (e : SessionEntry) (h : lookupEntry l id = some e) :
    (eraseEntry l id).length + 1 = l.length := by
  induction l with
  | nil => simp [lookupEntry] at h
  | cons p rest ih =>
    obtain ⟨k, v⟩ := p
    by_cases hk : k = id
    · simp [eraseEntry, hk]
    · simp [lookupEntry, hk] at h
      simp [eraseEntry, hk, ih h]

theorem lookupEntry_eraseEntry_of_none (l : List (String × SessionEntry)) (id k : String)
    (h : lookupEntry l id = none) : lookupEntry (eraseEntry l k) id = none := by
  induction l with
  | nil => simp [eraseEntry, lookupEntry]
  | cons p rest ih =>
    obtain ⟨k', v⟩ := p
    by_cases hk : k' = id
    · simp [lookupEntry, hk] at h
    · simp [lookupEntry, hk] at h
      by_cases hk' : k' = k <;> simp [eraseEntry, lookupEntry, hk, hk', ih h, h]

theorem lookupEntry_eraseEntry_self (l : List (String × SessionEntry)) (k : String)
    (h : (l.map Prod.fst).Nodup) : lookupEntry (eraseEntry l k) k = none := by
  induction l with
  | nil => simp [eraseEntry, lookupEntry]
  | cons p rest ih =>
    obtain ⟨k', v⟩ := p
    simp only [List.map_cons, List.nodup_cons] at h
    by_cases hk : k' = k
    · subst hk
      simp only [eraseEntry, if_pos rfl]
      exact (lookupEntry_eq_none_iff rest k').mpr h.1
    · simp [eraseEntry, lookupEntry, hk, ih h.2]

theorem lookupEntry_append_of_not_mem (pre l : List (String × SessionEntry)) (k : String)
    (h : k ∉ pre.map Prod.fst) : lookupEntry (pre ++ l) k = lookupEntry l k := by
  induction pre with
  | nil => rfl
  | cons p rest ih =>
    obtain ⟨k', v⟩ := p
    simp only [List.map_cons, List.mem_cons] at h
    push_neg at h
    simp [lookupEntry, Ne.symm h.1, ih h.2]

theorem eraseEntry_append_of_not_mem (pre l : List (String × SessionEntry)) (k : String)
    (h : k ∉ pre.map Prod.fst) : eraseEntry (pre ++ l) k = pre ++ eraseEntry l k := by
  induction pre with
  | nil => rfl
  | cons p rest ih =>
    obtain ⟨k', v⟩ := p
    simp only [List.map_cons, List.mem_cons] at h
    push_neg at h
    simp [eraseEntry, Ne.symm h.1, ih h.2]

theorem oldestScan_all_streaming (l : List (String × SessionEntry)) :
    ∀ acc, (∀ p ∈ l, p.2.isStreaming = true) → oldestScan l acc = acc := by
  induction l with
  | nil => intro acc _; rfl
  | cons p rest ih =>
    intro acc h
    obtain ⟨k, v⟩ := p
    have hv : v.isStreaming = true := h (k, v) (by simp)
    have hstep : oldestScan ((k, v) :: rest) acc = oldestScan rest acc := by
      simp [oldestScan, hv]
    rw [hstep]
    exact ih acc (fun q hq => h q (by simp [hq]))

theorem oldestScan_some (l : List (String × SessionEntry)) :
    ∀ acc p, oldestScan l acc = some p → acc = some p ∨ p.1 ∈ l.map Prod.fst := by
  induction l with
  | nil => intro acc p h; exact Or.inl h
  | cons q rest ih =>
    intro acc p h
    obtain ⟨k, v⟩ := q
    simp only [oldestScan] at h
    rcases ih _ p h with hacc | hmem
    · split at hacc
      · exact Or.inr (by simp [← Option.some_inj.mp hacc])
      · exact Or.inl hacc
    · exact Or.inr (by simp [hmem])

theorem oldestIdle_mem (l : List (String × SessionEntry)) (oid : String)
    (h : oldestIdle l = some oid) : oid ∈ l.map Prod.fst := by
  unfold oldestIdle at h
  rcases hs : oldestScan l none with _ | p
  · rw [hs] at h
    exact Option.noConfusion h
  · rw [hs] at h
    have h' : p.1 = oid := Option.some_inj.mp h
    rcases oldestScan_some l none p hs with hacc | hmem
    · exact absurd hacc (by simp)
    · exact h' ▸ hmem

theorem SessionStore.eta (s : SessionStore) (l : List (String × SessionEntry))
    (h : s.sessions = l) : { s with sessions := l } = s := by
  cases s
  cases h
  rfl

/-! Unfolding lemmas for the store operations. -/

theorem disposeEntry_none (s : SessionStore) (id : String)
    (h : lookupEntry s.sessions id = none) : s._disposeEntry id = (s, []) := by
  unfold SessionStore._disposeEntry
  rw [h]

theorem disposeEntry_some (s : SessionStore) (id : String) (e : SessionEntry)
    (h : lookupEntry s.sessions id = some e) :
    s._disposeEntry id = ({ s with sessions := eraseEntry s.sessions id }, disposalSteps id e) := by
  unfold SessionStore._disposeEntry
  rw [h]

theorem get_none (s : SessionStore) (id : String) (now : Nat)
    (h : lookupEntry s.sessions id = none) : s.get id now = (s, none) := by
  unfold SessionStore.get
  rw [h]

theorem get_some (s : SessionStore) (id : String) (now : Nat) (e : SessionEntry)
    (h : lookupEntry s.sessions id = some e) :
    s.get id now =
      ({ s with sessions := insertEntry s.sessions id { e with lastAccessed := now } },
        some { e with lastAccessed := now }) := by
  unfold SessionStore.get
  rw [h]

theorem set_not_full (s : SessionStore) (id : String) (entry : SessionEntry)
    (h : ¬(s.sessions.length ≥ s.maxSessions ∧ lookupEntry s.sessions id = none)) :
    s.set id entry = SetResult.ok { s with sessions := insertEntry s.sessions id entry } [] := by
  unfold SessionStore.set
  rw [if_neg h]

theorem set_full_no_idle (s : SessionStore) (id : String) (entry : SessionEntry)
    (hc : s.sessions.length ≥ s.maxSessions ∧ lookupEntry s.sessions id = none)
    (ho : oldestIdle s.sessions = none) :
    s.set id entry = SetResult.err s (capacityMsg s.maxSessions) := by
  simp only [SessionStore.set, if_pos hc, ho]

theorem set_full_empty_id (s : SessionStore) (id : String) (entry : SessionEntry)
    (hc : s.sessions.length ≥ s.maxSessions ∧ lookupEntry s.sessions id = none)
    (ho : oldestIdle s.sessions = some "") :
    s.set id entry = SetResult.err s (capacityMsg s.maxSessions) := by
  simp [SessionStore.set, if_pos hc, ho]

theorem set_full_evict (s : SessionStore) (id : String) (entry : SessionEntry) (oid : String)
    (hc : s.sessions.length ≥ s.maxSessions ∧ lookupEntry s.sessions id = none)
    (ho : oldestIdle s.sessions = some oid) (hne : oid ≠ "") :
    s.set id entry =
      SetResult.ok
        { (s._disposeEntry oid).1 with
            sessions := insertEntry (s._disposeEntry oid).1.sessions id entry }
        (s._disposeEntry oid).2 := by
  simp only [SessionStore.set, if_pos hc, ho, if_neg hne]

/-! Preservation of the capacity bound by every caller-driven operation. -/

theorem applyOp_bound (s : SessionStore) (o : Op) (h : s.sessions.length ≤ s.maxSessions) :
    (applyOp s o).sessions.length ≤ s.maxSessions ∧ (applyOp s o).maxSessions = s.maxSessions := by
  cases o with
  | opGet id now =>
    simp only [applyOp]
    rcases hl : lookupEntry s.sessions id with _ | e
    · rw [get_none s id now hl]
      exact ⟨h, rfl⟩
    · rw [get_some s id now e hl]
      dsimp only
      exact ⟨by rw [length_insertEntry_of_some s.sessions id _ e hl]; exact h, rfl⟩
  | opDelete id =>
    simp only [applyOp, SessionStore.delete]
    rcases hl : lookupEntry s.sessions id with _ | e
    · rw [disposeEntry_none s id hl]
      exact ⟨h, rfl⟩
    · rw [disposeEntry_some s id e hl]
      dsimp only
      have hlen := length_eraseEntry_of_some s.sessions id e hl
      exact ⟨by omega, rfl⟩
  | opSet id e =>
    simp only [applyOp]
    by_cases hc : s.sessions.length ≥ s.maxSessions ∧ lookupEntry s.sessions id = none
    · rcases ho : oldestIdle s.sessions with _ | oid
      · rw [set_full_no_idle s id e hc ho]
        exact ⟨h, rfl⟩
      · by_cases hoe : oid = ""
        · subst hoe
          rw [set_full_empty_id s id e hc ho]
          exact ⟨h, rfl⟩
        · rw [set_full_evict s id e oid hc ho hoe]
          obtain ⟨eo, heo⟩ :=
            lookupEntry_isSome_of_mem s.sessions oid (oldestIdle_mem s.sessions oid ho)
          rw [disposeEntry_some s oid eo heo]
          dsimp only
          have hlen := length_eraseEntry_of_some s.sessions oid eo heo
          have habs : lookupEntry (eraseEntry s.sessions oid) id = none :=
            lookupEntry_eraseEntry_of_none s.sessions id oid hc.2
          have hins := length_insertEntry_of_none (eraseEntry s.sessions oid) id e habs
          exact ⟨by rw [hins]; omega, rfl⟩
    · rw [set_not_full s id e hc]
      dsimp only
      refine ⟨?_, rfl⟩
      rcases hl : lookupEntry s.sessions id with _ | e0
      · have hlt : s.sessions.length < s.maxSessions := by
          rcases not_and_or.mp hc with h1 | h2
          · omega
          · exact absurd hl h2
        rw [length_insertEntry_of_none s.sessions id e hl]
        omega
      · rw [length_insertEntry_of_some s.sessions id e e0 hl]
        exact h

theorem runOps_bound (ops : List Op) :
    ∀ s : SessionStore, s.sessions.length ≤ s.maxSessions →
      (runOps s ops).sessions.length ≤ (runOps s ops).maxSessions ∧
      (runOps s ops).maxSessions = s.maxSessions := by
  induction ops with
  | nil => intro s h; exact ⟨h, rfl⟩
  | cons o rest ih =>
    intro s h
    have ha := applyOp_bound s o h
    have hr := ih (applyOp s o) (ha.2.symm ▸ ha.1)
    have hstep : runOps s (o :: rest) = runOps (applyOp s o) rest := rfl
    rw [hstep]
    exact ⟨hr.1, hr.2.trans ha.2⟩

/-- Claim C1: for every sequence of admit (`set`), lookup (`get`) and remove
(`delete`) operations on a `SessionStore` constructed with a positive
`maxSessions`, the number of stored records (`size`) never exceeds
`maxSessions`. -/
theorem claim_C1_size_never_exceeds_max (maxS tout : Nat) (ops : List Op) (_hpos : 0 < maxS) :
    (runOps (mkStore maxS tout) ops).size ≤ maxS := by
  have h0 : (mkStore maxS tout).sessions.length ≤ (mkStore maxS tout).maxSessions := by
    simp [mkStore]
  have h := runOps_bound ops (mkStore maxS tout) h0
  have h1 := h.1
  have h2 : (runOps (mkStore maxS tout) ops).maxSessions = maxS := h.2
  show (runOps (mkStore maxS tout) ops).sessions.length ≤ maxS
  omega

/-- Witness for C1 at a concrete operation sequence that drives a
capacity-2 store through an eviction. -/
theorem claim_C1_witness :
    0 < 2 ∧
      (runOps (mkStore 2 0)
          [Op.opSet "a" idleEntry, Op.opSet "b" idleEntryAt2,
            Op.opSet "c" idleEntryAt2, Op.opGet "b" 5, Op.opDelete "a"]).size ≤ 2 :=
  ⟨by decide,
    claim_C1_size_never_exceeds_max 2 0
      [Op.opSet "a" idleEntry, Op.opSet "b" idleEntryAt2,
        Op.opSet "c" idleEntryAt2, Op.opGet "b" 5, Op.opDelete "a"] (by decide)⟩

/-- Claim C2 (code bug): the eviction branch of `set` checks the selected id
with JavaScript truthiness (`if (!oldestId)`), so when the non-busy record
with the smallest `lastAccessed` is stored under the empty-string id, `set`
throws the capacity-exhausted error ("... all are active") instead of
evicting it — although a non-busy record is present, contradicting both the
claim and the method's own doc comment ("Throws if all sessions are active
and at capacity").  This theorem evaluates the code at the failing input:
`c2Store` is at capacity 1 with its only record idle, under id `""`. -/
theorem claim_C2_empty_id_eviction_bug :
    c2Store.sessions.length = c2Store.maxSessions ∧
    lookupEntry c2Store.sessions "x" = none ∧
    (∃ p ∈ c2Store.sessions, p.2.isStreaming = false) ∧
    c2Store.set "x" idleEntryAt2 = SetResult.err c2Store (capacityMsg 1) := by
  refine ⟨rfl, by decide, ⟨("", idleEntry), by simp [c2Store], rfl⟩, by decide⟩

/-- Claim C3: when the registry is at capacity, the admitted id is new and
every stored record is busy (`isStreaming`), `set` raises the
capacity-exhausted error naming the configured limit, the new record is not
inserted, and the registry is left unchanged — the `err` result carries the
store exactly as it was (same `sessions` list, hence identical size and
every previously stored record still present). -/
theorem claim_C3_all_busy_capacity_error (s : SessionStore) (id : String) (e : SessionEntry)
    (hfull : s.sessions.length = s.maxSessions)
    (hnew : lookupEntry s.sessions id = none)
    (hbusy : ∀ p ∈ s.sessions, p.2.isStreaming = true) :
    s.set id e = SetResult.err s (capacityMsg s.maxSessions) ∧
    (∃ pre post, capacityMsg s.maxSessions = pre ++ (toString s.maxSessions ++ post)) := by
  have ho : oldestIdle s.sessions = none := by
    unfold oldestIdle
    rw [oldestScan_all_streaming s.sessions none hbusy]
    rfl
  refine ⟨set_full_no_idle s id e ⟨le_of_eq hfull.symm, hnew⟩ ho, ?_⟩
  exact ⟨"Maximum sessions (", ") reached and all are active. Try again later.", rfl⟩

/-- Witness for C3: a capacity-1 store holding one busy record rejects a new
id and is returned unchanged. -/
theorem claim_C3_witness :
    c3Store.set "b" idleEntry = SetResult.err c3Store (capacityMsg c3Store.maxSessions) ∧
    (∃ pre post, capacityMsg c3Store.maxSessions = pre ++ (toString c3Store.maxSessions ++ post)) :=
  claim_C3_all_busy_capacity_error c3Store "b" idleEntry rfl (by decide) (by decide)

/-- Claim C4: whenever the `pi-reply` handler gets past the initial lookup —
so a fresh ticket (the new per-session mutex promise) has been installed for
the next waiter — that ticket is resolved on every exit path: work-handle
success, work-unit failure (caught and rendered as "Pi agent error"), the
no-text response, and the post-wait re-validation failure all reach the
`finally` clause that releases the mutex, so the next waiter is always
released; when the lookup fails no ticket was installed, so the chain is
never corrupted. -/
theorem claim_C4_ticket_always_resolved (threadId : String) (env : ReplyEnv) :
    (env.sessionFound = true →
      (piReplyHandler threadId env).ticketInstalled = true ∧
      (piReplyHandler threadId env).ticketResolved = true) ∧
    (env.sessionFound = false → (piReplyHandler threadId env).ticketInstalled = false) := by
  rcases env with ⟨sf, sp, pr, lt⟩
  cases sf <;> simp [piReplyHandler]

/-- Witness for C4 on the all-success environment. -/
theorem claim_C4_witness :
    (piReplyHandler "t1" replyEnvOk).ticketInstalled = true ∧
    (piReplyHandler "t1" replyEnvOk).ticketResolved = true :=
  (claim_C4_ticket_always_resolved "t1" replyEnvOk).1 rfl

/-- Claim C5: if, after waiting its turn on the session mutex, the unit of
work finds the session id no longer in the registry, it returns the
"Session not found" error and performs no call on the session's work handle:
`prompt` is never invoked, `getLastAssistantText` is never invoked, and
`lastAccessed` is not refreshed. -/
theorem claim_C5_evicted_while_waiting (threadId : String) (env : ReplyEnv)
    (hfound : env.sessionFound = true) (hgone : env.stillPresentAfterWait = false) :
    (piReplyHandler threadId env).isError = true ∧
    (∃ rest, (piReplyHandler threadId env).text = "Session not found: " ++ rest) ∧
    (piReplyHandler threadId env).promptCalled = false ∧
    (piReplyHandler threadId env).getLastTextCalled = false ∧
    (piReplyHandler threadId env).lastAccessedRefreshed = false := by
  rcases env with ⟨sf, sp, pr, lt⟩
  cases hfound
  cases hgone
  refine ⟨rfl,
    ⟨threadId ++ ". It was evicted while waiting. Start a new session with the \"pi\" tool.",
      rfl⟩, rfl, rfl, rfl⟩

/-- Witness for C5 on a concrete environment where the session disappears
while the caller waits on the mutex. -/
theorem claim_C5_witness :
    (piReplyHandler "t2" replyEnvEvicted).isError = true ∧
    (∃ rest, (piReplyHandler "t2" replyEnvEvicted).text = "Session not found: " ++ rest) ∧
    (piReplyHandler "t2" replyEnvEvicted).promptCalled = false ∧
    (piReplyHandler "t2" replyEnvEvicted).getLastTextCalled = false ∧
    (piReplyHandler "t2" replyEnvEvicted).lastAccessedRefreshed = false :=
  claim_C5_evicted_while_waiting "t2" replyEnvEvicted rfl rfl

/-- Claim C7: every disposal invocation runs all three resource-release
steps — unsubscribe, abort (covering both a synchronous throw and an
asynchronously rejected promise) and dispose — even when an earlier step
failed; each failure is caught and logged, and the disposal routine is a
total function into a plain pair (every `Except` failure of a callback is
matched on and converted into a log event), so no error propagates to the
caller.  The event log of `_disposeEntry` is exactly `disposalSteps`, which
for every combination of fault flags contains all three `...Called` events
and a `...Logged` event precisely for the steps that failed. -/
theorem claim_C7_disposal_all_steps_guarded (s : SessionStore) (id : String) (e : SessionEntry)
    (h : lookupEntry s.sessions id = some e) :
    (s._disposeEntry id).2 = disposalSteps id e ∧
    Ev.unsubCalled id ∈ disposalSteps id e ∧
    Ev.abortCalled id ∈ disposalSteps id e ∧
    Ev.disposeCalled id ∈ disposalSteps id e ∧
    (Ev.unsubErrorLogged id ∈ disposalSteps id e ↔ e.unsubscribeThrows = true) ∧
    (Ev.abortSyncErrorLogged id ∈ disposalSteps id e ↔ e.abortThrowsSync = true) ∧
    (Ev.abortAsyncErrorLogged id ∈ disposalSteps id e ↔
      e.abortThrowsSync = false ∧ e.abortRejects = true) ∧
    (Ev.disposeErrorLogged id ∈ disposalSteps id e ↔ e.disposeThrows = true) := by
  refine ⟨by rw [disposeEntry_some s id e h], ?_⟩
  rcases e with ⟨st, la, u, a1, a2, d⟩
  cases u <;> cases a1 <;> cases a2 <;> cases d <;>
    simp [disposalSteps, unsubscribeResult, abortResult, disposeResult]

/-- Witness for C7 on a record whose unsubscribe throws, whose abort throws
synchronously and whose dispose throws. -/
theorem claim_C7_witness :
    (c7Store._disposeEntry "a").2 = disposalSteps "a" faultyEntry ∧
    Ev.unsubCalled "a" ∈ disposalSteps "a" faultyEntry ∧
    Ev.abortCalled "a" ∈ disposalSteps "a" faultyEntry ∧
    Ev.disposeCalled "a" ∈ disposalSteps "a" faultyEntry :=
  let h := claim_C7_disposal_all_steps_guarded c7Store "a" faultyEntry (by decide)
  ⟨h.1, h.2.1, h.2.2.1, h.2.2.2.1⟩

/-- Claim C10: whenever the configured idle timeout is positive the sweep is
scheduled with a fixed tick period of 60 000 ms, independent of the timeout
value; and a record whose idle time already exceeds the timeout is still
present and still returned by `get` — with its `lastAccessed` refreshed —
because only the (minute-grained) sweep tick removes expired records. -/
theorem claim_C10_fixed_sweep_period :
    (∀ maxS tout : Nat, 0 < tout → (mkStore maxS tout).expiryTimer = some 60000) ∧
    (∀ (s : SessionStore) (id : String) (e : SessionEntry) (now : Nat),
      lookupEntry s.sessions id = some e →
      (now : Int) - (e.lastAccessed : Int) > (s.idleTimeoutMs : Int) →
      (s.get id now).2 = some { e with lastAccessed := now } ∧
      lookupEntry (s.get id now).1.sessions id = some { e with lastAccessed := now }) := by
  constructor
  · intro maxS tout ht
    have hms : tout * 1000 > 0 := by omega
    simp [mkStore, hms]
  · intro s id e now h hexp
    rw [get_some s id now e h]
    exact ⟨rfl, lookupEntry_insertEntry_self s.sessions id { e with lastAccessed := now }⟩

/-- Witness for C10: a 30-second timeout still yields a 60 000 ms tick, and a
record idle for 2000 ms against a 10 ms timeout is still served by `get`. -/
theorem claim_C10_witness :
    (mkStore 5 30).expiryTimer = some 60000 ∧
    (c10Store.get "a" 2000).2 = some { idleEntry with lastAccessed := 2000 } ∧
    lookupEntry (c10Store.get "a" 2000).1.sessions "a" =
      some { idleEntry with lastAccessed := 2000 } :=
  let h := claim_C10_fixed_sweep_period.2 c10Store "a" idleEntry 2000 (by decide) (by decide)
  ⟨claim_C10_fixed_sweep_period.1 5 30 (by decide), h.1, h.2⟩

/-! The drain loop of `clear` and the scan loop of `_expireIdle`, unrolled. -/

theorem clear_fold (l : List (String × SessionEntry)) :
    ∀ (s : SessionStore) (acc : List Ev), s.sessions = l →
      (l.map Prod.fst).foldl
        (fun acc id =>
          let d := acc.1._disposeEntry id
          (d.1, acc.2 ++ d.2))
        (s, acc)
      = ({ s with sessions := [] }, acc ++ disposalLog l) := by
  induction l with
  | nil =>
    intro s acc hs
    simp only [List.map_nil, List.foldl_nil, disposalLog, List.append_nil]
    rw [SessionStore.eta s [] hs]
  | cons p rest ih =>
    intro s acc hs
    obtain ⟨k, v⟩ := p
    have hlook : lookupEntry s.sessions k = some v := by
      rw [hs]
      simp [lookupEntry]
    have herase : eraseEntry s.sessions k = rest := by
      rw [hs]
      simp [eraseEntry]
    rw [List.map_cons, List.foldl_cons]
    dsimp only
    rw [disposeEntry_some s k v hlook]
    dsimp only
    rw [herase, ih { s with sessions := rest } (acc ++ disposalSteps k v) rfl]
    simp [disposalLog, List.append_assoc]

theorem expire_fold (tmo now : Nat) (rest : List (String × SessionEntry)) :
    ∀ (pre : List (String × SessionEntry)) (s : SessionStore) (acc : List Ev),
      s.sessions = pre ++ rest →
      ((pre ++ rest).map Prod.fst).Nodup →
      rest.foldl (expireStep tmo now) (s, acc)
        = ({ s with sessions := pre ++ rest.filter (fun p => !(expiredAt tmo now p)) },
           acc ++ disposalLog (rest.filter (expiredAt tmo now))) := by
  induction rest with
  | nil =>
    intro pre s acc hs _
    rw [List.append_nil] at hs
    simp only [List.foldl_nil, List.filter_nil, List.append_nil, disposalLog]
    rw [SessionStore.eta s pre hs]
  | cons p rest' ih =>
    intro pre s acc hs hnd
    obtain ⟨k, v⟩ := p
    have hnd2 := hnd
    rw [List.map_append] at hnd2
    have hdisj := (List.nodup_append.mp hnd2).2.2
    have hkpre : k ∉ pre.map Prod.fst := fun hk => hdisj hk (by simp)
    by_cases hexp : expiredAt tmo now (k, v) = true
    · have hlook : lookupEntry s.sessions k = some v := by
        rw [hs, lookupEntry_append_of_not_mem pre _ k hkpre]
        simp [lookupEntry]
      have herase : eraseEntry s.sessions k = pre ++ rest' := by
        rw [hs, eraseEntry_append_of_not_mem pre _ k hkpre]
        simp [eraseEntry]
      have hstep : expireStep tmo now (s, acc) (k, v)
          = ({ s with sessions := pre ++ rest' }, acc ++ disposalSteps k v) := by
        unfold expireStep
        rw [if_pos hexp, disposeEntry_some s k v hlook]
        dsimp only
        rw [herase]
      have hsub : List.Sublist ((pre ++ rest').map Prod.fst)
          ((pre ++ (k, v) :: rest').map Prod.fst) := by
        rw [List.map_append, List.map_append, List.map_cons]
        exact List.Sublist.append_left (List.sublist_cons_self _ _) _
      have hnd' : ((pre ++ rest').map Prod.fst).Nodup := List.Nodup.sublist hsub hnd
      rw [List.foldl_cons, hstep,
        ih pre { s with sessions := pre ++ rest' } (acc ++ disposalSteps k v) rfl hnd']
      simp [List.filter_cons, hexp, disposalLog, List.append_assoc]
    · have hexpf : expiredAt tmo now (k, v) = false := by
        cases hb : expiredAt tmo now (k, v)
        · rfl
        · exact absurd hb hexp
      have hstep : expireStep tmo now (s, acc) (k, v) = (s, acc) := by
        unfold expireStep
        rw [if_neg hexp]
      have hs' : s.sessions = (pre ++ [(k, v)]) ++ rest' := by
        rw [hs]
        simp
      have hnd' : (((pre ++ [(k, v)]) ++ rest').map Prod.fst).Nodup := by
        simpa using hnd
      rw [List.foldl_cons, hstep, ih (pre ++ [(k, v)]) s acc hs' hnd']
      simp [List.filter_cons, hexpf, List.append_assoc]

/-- Claim C6 counterexample: admitting a record under an already-present id
overwrites the stored record in place and emits no disposal events at all —
the replaced record (`idleEntry` under id "a") ceases to be stored without
ever undergoing the disposal routine, so the claim's "admission of a record
under an already-present id" case fails on the code. -/
theorem claim_C6_counterexample :
    c6Store.set "a" idleEntryAt2 =
      SetResult.ok { c6Store with sessions := [("a", idleEntryAt2)] } [] ∧
    idleEntry ≠ idleEntryAt2 := by
  decide

/-- Claim C6 (amended): every record removed from the registry's keyed
collection by explicit removal or capacity-triggered eviction undergoes the
single shared disposal routine, exactly once and never twice: `delete` of a
present record erases it and emits exactly its disposal steps, deleting again
emits nothing, `delete` of an absent id is a silent no-op, and whenever
`set` emits disposal events they are exactly the disposal steps of a single
record that was present before and is absent afterwards.  (Idle expiry and
drain delegate to the same routine; their event logs are characterised
separately.)  Admission under an already-present id, however, replaces the
record without disposal. -/
theorem claim_C6_single_disposal_routine (s : SessionStore)
    (hnd : (s.sessions.map Prod.fst).Nodup) :
    (∀ id e, lookupEntry s.sessions id = some e →
      s.delete id = ({ s with sessions := eraseEntry s.sessions id }, disposalSteps id e) ∧
      ((s.delete id).1.delete id).2 = []) ∧
    (∀ id, lookupEntry s.sessions id = none → s.delete id = (s, [])) ∧
    (∀ id e s1 evs, s.set id e = SetResult.ok s1 evs →
      evs = [] ∨ ∃ oid oe, lookupEntry s.sessions oid = some oe ∧ oid ≠ id ∧
        evs = disposalSteps oid oe ∧ lookupEntry s1.sessions oid = none) := by
  refine ⟨?_, ?_, ?_⟩
  · intro id e h
    have h1 : s.delete id
        = ({ s with sessions := eraseEntry s.sessions id }, disposalSteps id e) := by
      unfold SessionStore.delete
      exact disposeEntry_some s id e h
    refine ⟨h1, ?_⟩
    rw [h1]
    dsimp only
    unfold SessionStore.delete
    rw [disposeEntry_none _ id (lookupEntry_eraseEntry_self s.sessions id hnd)]
  · intro id h
    unfold SessionStore.delete
    exact disposeEntry_none s id h
  · intro id e s1 evs hset
    by_cases hc : s.sessions.length ≥ s.maxSessions ∧ lookupEntry s.sessions id = none
    · rcases ho : oldestIdle s.sessions with _ | oid
      · rw [set_full_no_idle s id e hc ho] at hset
        exact absurd hset (by simp)
      · by_cases hoe : oid = ""
        · subst hoe
          rw [set_full_empty_id s id e hc ho] at hset
          exact absurd hset (by simp)
        · rw [set_full_evict s id e oid hc ho hoe] at hset
          obtain ⟨oe, hoid⟩ :=
            lookupEntry_isSome_of_mem s.sessions oid (oldestIdle_mem s.sessions oid ho)
          rw [disposeEntry_some s oid oe hoid] at hset
          injection hset with h1 h2
          have hne : oid ≠ id := by
            intro heq
            rw [heq, hc.2] at hoid
            exact Option.noConfusion hoid
          refine Or.inr ⟨oid, oe, hoid, hne, h2.symm, ?_⟩
          rw [← h1]
          dsimp only
          rw [lookupEntry_insertEntry_ne _ id oid e hne]
          exact lookupEntry_eraseEntry_self s.sessions oid hnd
    · rw [set_not_full s id e hc] at hset
      injection hset with h1 h2
      exact Or.inl h2.symm

/-- Witness for the amended C6 on a one-record store: deleting "a" runs the
disposal steps once, and a second delete of the same id emits nothing. -/
theorem claim_C6_witness :
    c6Store.delete "a" =
      ({ c6Store with sessions := eraseEntry c6Store.sessions "a" }, disposalSteps "a" idleEntry) ∧
    ((c6Store.delete "a").1.delete "a").2 = [] :=
  (claim_C6_single_disposal_routine c6Store (by decide)).1 "a" idleEntry (by decide)

/-- Claim C8: `clear` (drainAll) first stops the idle-expiry sweep timer
(`expiryTimer := none`), then disposes every remaining record one at a time,
continuing past individual disposal failures (the entries may carry any
combination of fault flags — each still contributes its full block of
disposal steps); afterwards the store is empty (`size = 0`) and the event
log is exactly one disposal block per record that was present, in order —
disposal attempted exactly once for each. -/
theorem claim_C8_drain_all (s : SessionStore) :
    s.clear = ({ s with sessions := [], expiryTimer := none }, disposalLog s.sessions) ∧
    (s.clear).1.size = 0 ∧ (s.clear).1.expiryTimer = none := by
  have heq : s.clear
      = ({ s with sessions := [], expiryTimer := none }, disposalLog s.sessions) := by
    simp only [SessionStore.clear]
    rw [clear_fold s.sessions { s with expiryTimer := none } [] rfl]
    simp
  exact ⟨heq, by rw [heq]; rfl, by rw [heq]⟩

/-- Claim C9: the idle-expiry sweep is scheduled iff the configured timeout
(seconds) is positive, and each tick disposes exactly the records whose idle
time `now - lastAccessed` strictly exceeds the timeout, leaving the more
recently accessed records in place (in order); a disposal failure of one
record cannot stop the scan — the fault flags of every record are arbitrary
and each expired record still contributes its full disposal block to the
log. -/
theorem claim_C9_idle_sweep :
    (∀ maxS tout : Nat, ((mkStore maxS tout).expiryTimer).isSome = true ↔ 0 < tout) ∧
    (∀ (s : SessionStore) (now : Nat), (s.sessions.map Prod.fst).Nodup →
      s._expireIdle now =
        ({ s with sessions :=
            s.sessions.filter (fun p => !(expiredAt s.idleTimeoutMs now p)) },
         disposalLog (s.sessions.filter (expiredAt s.idleTimeoutMs now)))) := by
  constructor
  · intro maxS tout
    constructor
    · intro h
      by_contra h0
      have ht : tout = 0 := by omega
      subst ht
      simp [mkStore] at h
    · intro ht
      have hms : tout * 1000 > 0 := by omega
      simp [mkStore, hms]
  · intro s now hnd
    unfold SessionStore._expireIdle
    exact expire_fold s.idleTimeoutMs now s.sessions [] s [] rfl hnd

/-- Witness for C9: with a 10 ms timeout at tick time 2000, the record idle
since 0 is disposed and the one accessed at 1995 stays; a 5-second timeout
schedules the timer. -/
theorem claim_C9_witness :
    ((mkStore 3 5).expiryTimer).isSome = true ∧
    c9Store._expireIdle 2000 =
      ({ c9Store with sessions := [("fresh", { idleEntry with lastAccessed := 1995 })] },
       disposalLog [("old", idleEntry)]) := by
  constructor
  · exact (claim_C9_idle_sweep.1 3 5).mpr (by decide)
  · rw [claim_C9_idle_sweep.2 c9Store 2000 (by decide)]
    decide

end PiMcp
